import Mathlib

/-!
Shallow embedding of `src/decoder/serde.rs` from the toml-rs fork: the
serde-0.x `Deserializer` implementation for `Decoder`, the sequence cursor
`SeqDeserializer`, the map cursor `MapVisitor`, the error mapper `se2toml`
and the `UnitDeserializer` probe.  Rust's `&mut` state is rendered by
explicit state passing: every operation returns its updated state, and the
`&mut Option<Value>` accumulator back-references become a `toml` field of
the cursor state whose final value the parent reads back.  `unreachable!`
and `unwrap` panics are modelled by a third `Outcome.panic` result.
-/

/-- Modelled from the spec: the `Value` tree of `src/decoder/mod.rs`
(not under `src/`): String / Integer (i64) / Float (f64) / Boolean /
Datetime (opaque text) / Array (ordered) / Table (`BTreeMap<String, Value>`,
rendered as an association list in strictly increasing key order).  The
f64 payload is carried as opaque bits: no claim computes on floats. -/
inductive Value where
  | String (s : String)
  | Integer (i : Int)
  | Float (bits : Nat)
  | Boolean (b : Bool)
  | Datetime (s : String)
  | Array (a : List Value)
  | Table (t : List (String × Value))
deriving Repr

/-- Modelled from the spec: `DecodeErrorKind` of `src/decoder/mod.rs`
(not under `src/`): SyntaxError, EndOfStream, ExpectedField with an
optional static type tag, UnknownField — exactly the variants `serde.rs`
constructs and matches on. -/
inductive DecodeErrorKind where
  | SyntaxError
  | EndOfStream
  | ExpectedField (ty : Option String)
  | UnknownField
deriving Repr, DecidableEq

/-- Modelled from the spec: `DecodeError` of `src/decoder/mod.rs`
(not under `src/`): an optional field name plus a kind. -/
structure DecodeError where
  field : Option String
  kind : DecodeErrorKind
deriving Repr, DecidableEq

/-- The type `serde::de::value::Error` (external collaborator, as used by
`serde.rs`): the four consumer-protocol error signals. -/
inductive SerdeError where
  | SyntaxError
  | EndOfStreamError
  | MissingFieldError (s : String)
  | UnknownFieldError (s : String)
deriving Repr, DecidableEq

/-- Result of a decoding step: success, a `DecodeError`, or a Rust panic
(`unreachable!` / `unwrap` on `None`). -/
inductive Outcome (α : Type) where
  | ok (a : α)
  | err (e : DecodeError)
  | panic
deriving Repr

instance {α : Type} [DecidableEq α] : DecidableEq (Outcome α) := fun a b =>
  match a, b with
  | .ok x, .ok y =>
      if h : x = y then .isTrue (by rw [h]) else .isFalse (by intro hc; cases hc; exact h rfl)
  | .err x, .err y =>
      if h : x = y then .isTrue (by rw [h]) else .isFalse (by intro hc; cases hc; exact h rfl)
  | .panic, .panic => .isTrue rfl
  | .ok _, .err _ => .isFalse (by intro hc; cases hc)
  | .ok _, .panic => .isFalse (by intro hc; cases hc)
  | .err _, .ok _ => .isFalse (by intro hc; cases hc)
  | .err _, .panic => .isFalse (by intro hc; cases hc)
  | .panic, .ok _ => .isFalse (by intro hc; cases hc)
  | .panic, .err _ => .isFalse (by intro hc; cases hc)

def Outcome.map {α β : Type} (f : α → β) : Outcome α → Outcome β
  | .ok a => .ok (f a)
  | .err e => .err e
  | .panic => .panic

/-- From `impl de::Error for DecodeError`: `syntax_error` (serde.rs:168). -/
def DecodeError.syntax_error : DecodeError := ⟨none, .SyntaxError⟩

/-- From `impl de::Error for DecodeError`: `end_of_stream_error` (serde.rs:171). -/
def DecodeError.end_of_stream_error : DecodeError := ⟨none, .EndOfStream⟩

/-- From `impl de::Error for DecodeError`: `missing_field_error` (serde.rs:174). -/
def DecodeError.missing_field_error (name : String) : DecodeError :=
  ⟨some name, .ExpectedField none⟩

/-- From `impl de::Error for DecodeError`: `unknown_field_error` (serde.rs:180). -/
def DecodeError.unknown_field_error (name : String) : DecodeError :=
  ⟨some name, .UnknownField⟩

/-- The function `se2toml(err, ty)` (serde.rs:13-30): maps a consumer-protocol error
to a `DecodeError`, tagging field-level kinds with the target-type tag. -/
def se2toml (err : SerdeError) (ty : String) : DecodeError :=
  match err with
  | .SyntaxError => DecodeError.syntax_error
  | .EndOfStreamError => DecodeError.end_of_stream_error
  | .MissingFieldError s => ⟨some s, .ExpectedField (some ty)⟩
  | .UnknownFieldError s => ⟨some s, .UnknownField⟩

/-- Insertion (`BTreeMap::insert`) on a `String`-keyed map rendered as a sorted
association list: insert in key order, replacing an equal key. -/
def Table.insert : List (String × Value) → String → Value → List (String × Value)
  | [], k, v => [(k, v)]
  | (k', v') :: rest, k, v =>
    if k < k' then (k, v) :: (k', v') :: rest
    else if k = k' then (k, v) :: rest
    else (k', v') :: Table.insert rest k v

/-- Modelled from the spec: the `Decoder` of `src/decoder/mod.rs` (not
under `src/`): it holds exactly zero or one pending `Value` in the field
`toml`, exactly as `serde.rs` reads and writes it. -/
structure Decoder where
  toml : Option Value

/-- Modelled from the spec: `Decoder::new(value)` puts the value in the
pending slot. -/
def Decoder.new (v : Value) : Decoder := ⟨some v⟩

/-- The struct `SeqDeserializer` (serde.rs:94-98): remaining iterator,
remaining count, and the accumulator slot (`&mut Option<Value>` rendered
as an owned field the parent reads back). -/
structure SeqDeserializer where
  iter : List Value
  len : Nat
  toml : Option Value

/-- The struct `MapVisitor` (serde.rs:6-11): remaining entry iterator,
accumulator slot, last-matched key, pending value. -/
structure MapVisitor where
  iter : List (String × Value)
  toml : Option Value
  key : Option String
  value : Option Value

/-- A serde `Visitor`: the consumer's capability set.  Primitive
capabilities answer with the consumer-protocol error type (they are
mapped through `se2toml` by the caller); compound capabilities receive
the cursor state and return it updated, with uniform `DecodeError`
errors. -/
structure Visitor (α : Type) where
  visit_string : String → Except SerdeError α
  visit_i64 : Int → Except SerdeError α
  visit_f64 : Nat → Except SerdeError α
  visit_bool : Bool → Except SerdeError α
  visit_seq : SeqDeserializer → Outcome (α × SeqDeserializer)
  visit_map : MapVisitor → Outcome (α × MapVisitor)
  visit_unit : Except DecodeError α
  visit_none : Except DecodeError α
  visit_some : Decoder → Outcome (α × Decoder)

/-- Lift a primitive-capability answer into an `Outcome`, applying the
`map_err(|e| se2toml(e, ty))` of the call site; the decoder's slot was
taken, so the post-state slot is empty. -/
def primResult {α : Type} (r : Except SerdeError α) (ty : String) :
    Outcome (α × Decoder) :=
  match r with
  | .ok a => .ok (a, ⟨none⟩)
  | .error e => .err (se2toml e ty)

/-- From `impl de::Deserializer for Decoder`: `visit` (serde.rs:35-69):
take the pending value and dispatch on its tag; compound values hand a
fresh cursor (accumulator slot starting empty, since `take` emptied it)
to the consumer and read the residue back from the returned cursor. -/
def Decoder.visit {α : Type} (d : Decoder) (vis : Visitor α) :
    Outcome (α × Decoder) :=
  match d.toml with
  | some (.String s) => primResult (vis.visit_string s) "string"
  | some (.Integer i) => primResult (vis.visit_i64 i) "integer"
  | some (.Float f) => primResult (vis.visit_f64 f) "float"
  | some (.Boolean b) => primResult (vis.visit_bool b) "bool"
  | some (.Datetime s) => primResult (vis.visit_string s) "date"
  | some (.Array a) =>
      (vis.visit_seq ⟨a, a.length, none⟩).map (fun p => (p.1, ⟨p.2.toml⟩))
  | some (.Table t) =>
      (vis.visit_map ⟨t, none, none, none⟩).map (fun p => (p.1, ⟨p.2.toml⟩))
  | none => .err DecodeError.end_of_stream_error

/-- Method `Decoder::visit_option` (serde.rs:71-79). -/
def Decoder.visit_option {α : Type} (d : Decoder) (vis : Visitor α) :
    Outcome (α × Decoder) :=
  match d.toml with
  | none => match vis.visit_none with
      | .ok a => .ok (a, d)
      | .error e => .err e
  | some _ => vis.visit_some d

/-- Method `Decoder::visit_seq` (serde.rs:81-91): with an empty slot, offer the
consumer an empty zero-length sequence cursor (serde's
`de::value::SeqDeserializer` over an empty iterator, which owns no
accumulator back-reference, so the decoder's slot stays empty);
otherwise defer to the general dispatch. -/
def Decoder.visit_seq {α : Type} (d : Decoder) (vis : Visitor α) :
    Outcome (α × Decoder) :=
  match d.toml with
  | none => (vis.visit_seq ⟨[], 0, none⟩).map (fun p => (p.1, ⟨none⟩))
  | some _ => d.visit vis

/-- Method `SeqDeserializer::put_value_back` (serde.rs:109-117): ensure the
accumulator holds an `Array` (creating an empty one when the slot is
empty) and push the residue; a non-`Array` occupant is the
`unreachable!` arm, modelled as a panic. -/
def SeqDeserializer.put_value_back (s : SeqDeserializer) (v : Value) :
    Outcome SeqDeserializer :=
  match s.toml.or (some (.Array [])) with
  | some (.Array a) => .ok {s with toml := some (.Array (a ++ [v]))}
  | _ => .panic

/-- From `impl de::SeqVisitor for SeqDeserializer`: `visit` (serde.rs:137-152):
pull the next element, decrement the count, drive a fresh `Decoder` over
it through the consumer-supplied conversion `deser`, and append any
residue the child decoder still holds to the accumulator. -/
def SeqDeserializer.visit {β : Type} (s : SeqDeserializer)
    (deser : Decoder → Outcome (β × Decoder)) :
    Outcome (Option β × SeqDeserializer) :=
  match s.iter with
  | [] => .ok (none, s)
  | value :: rest =>
    let s1 : SeqDeserializer := {s with iter := rest, len := s.len - 1}
    match deser (Decoder.new value) with
    | .err e => .err e
    | .panic => .panic
    | .ok (v, de) =>
      match de.toml with
      | some t => (s1.put_value_back t).map (fun s2 => (some v, s2))
      | none => .ok (some v, s1)

/-- Method `SeqDeserializer::end` (serde.rs:154-160): succeed only when the
remaining count is zero, else `EndOfStream`. -/
def SeqDeserializer.end_ (s : SeqDeserializer) : Except DecodeError Unit :=
  if s.len = 0 then .ok () else .error DecodeError.end_of_stream_error

/-- Method `SeqDeserializer::size_hint` (serde.rs:162-164). -/
def SeqDeserializer.size_hint (s : SeqDeserializer) : Nat × Option Nat :=
  (s.len, some s.len)

/-- Method `MapVisitor::put_value_back` (serde.rs:189-199): ensure the
accumulator holds a `Table` (creating an empty one when the slot is
empty) and insert the residue under the taken `key`; a non-`Table`
occupant is the `unreachable!` arm and a missing key is the failing
`unwrap`, both modelled as panics. -/
def MapVisitor.put_value_back (s : MapVisitor) (v : Value) :
    Outcome MapVisitor :=
  match s.toml.or (some (.Table [])) with
  | some (.Table t) =>
    match s.key with
    | some k => .ok {s with toml := some (.Table (Table.insert t k v)), key := none}
    | none => .panic
  | _ => .panic

/-- Loop body of `MapVisitor::visit_key` (serde.rs:207-228), recursing on
the remaining entry iterator; the other `MapVisitor` fields are threaded
explicitly.  Each entry's key is offered to the consumer's key conversion
over a fresh `Decoder`; success stashes the paired value, an
`UnknownField` failure diverts the entry to the accumulator and
continues, any other failure propagates. -/
def MapVisitor.visit_key_go {κ : Type} (keyDeser : Decoder → Outcome (κ × Decoder)) :
    List (String × Value) → Option Value → Option String → Option Value →
    Outcome (Option κ × MapVisitor)
  | [], toml, key, value => .ok (none, ⟨[], toml, key, value⟩)
  | (k, v) :: rest, toml, _, value =>
    match keyDeser (Decoder.new (.String k)) with
    | .ok (val, _) => .ok (some val, ⟨rest, toml, some k, some v⟩)
    | .err e =>
      match e.kind with
      | .UnknownField =>
        match MapVisitor.put_value_back ⟨rest, toml, some k, value⟩ v with
        | .ok s2 => MapVisitor.visit_key_go keyDeser rest s2.toml s2.key s2.value
        | .err e2 => .err e2
        | .panic => .panic
      | _ => .err e
    | .panic => .panic

/-- Method `MapVisitor::visit_key` (serde.rs:207-228). -/
def MapVisitor.visit_key {κ : Type} (s : MapVisitor)
    (keyDeser : Decoder → Outcome (κ × Decoder)) :
    Outcome (Option κ × MapVisitor) :=
  MapVisitor.visit_key_go keyDeser s.iter s.toml s.key s.value

/-- Method `MapVisitor::visit_value` (serde.rs:230-244): take the stashed
pending value, drive a fresh `Decoder` over it through the
consumer-supplied conversion, fold any residue back under the matched
key; with no pending value, fail with `EndOfStream`. -/
def MapVisitor.visit_value {β : Type} (s : MapVisitor)
    (deser : Decoder → Outcome (β × Decoder)) : Outcome (β × MapVisitor) :=
  match s.value with
  | some t =>
    let s1 : MapVisitor := {s with value := none}
    match deser (Decoder.new t) with
    | .err e => .err e
    | .panic => .panic
    | .ok (v, dec) =>
      match dec.toml with
      | some t2 => (s1.put_value_back t2).map (fun s2 => (v, s2))
      | none => .ok (v, s1)
  | none => .err DecodeError.end_of_stream_error

/-- Method `MapVisitor::end` (serde.rs:246-248): always succeeds. -/
def MapVisitor.end_ (_ : MapVisitor) : Except DecodeError Unit := .ok ()

/-- The struct `UnitDeserializer` (serde.rs:266): the stateless probe. -/
structure UnitDeserializer

/-- Method `UnitDeserializer::visit` (serde.rs:271-275): offer unit. -/
def UnitDeserializer.visit {α : Type} (_ : UnitDeserializer) (vis : Visitor α) :
    Outcome α :=
  match vis.visit_unit with
  | .ok a => .ok a
  | .error e => .err e

/-- Method `UnitDeserializer::visit_option` (serde.rs:277-281): offer "no value
present". -/
def UnitDeserializer.visit_option {α : Type} (_ : UnitDeserializer)
    (vis : Visitor α) : Outcome α :=
  match vis.visit_none with
  | .ok a => .ok a
  | .error e => .err e

/-- Method `MapVisitor::missing_field` (serde.rs:250-263): probe the target type
against the `UnitDeserializer`; a `SyntaxError` probe failure is
reinterpreted as `ExpectedField`, attaching the field name only when the
probe error carried none; every other probe outcome is returned
unchanged.  `probe` is the target type's conversion driven by the
`UnitDeserializer`. -/
def MapVisitor.missing_field {β : Type} (_ : MapVisitor) (field_name : String)
    (probe : UnitDeserializer → Outcome β) : Outcome β :=
  match probe ⟨⟩ with
  | .err e =>
    match e.kind with
    | .SyntaxError => .err ⟨e.field.or (some field_name), .ExpectedField none⟩
    | _ => .err e
  | v => v

/-! Concrete consumers (inputs to the theorems, mirroring what serde's
derived `Deserialize` implementations do at each call site). -/

/-- A consumer answering every capability with the serde default: a
syntax-shape failure. -/
def defaultVisitor (α : Type) : Visitor α where
  visit_string _ := .error .SyntaxError
  visit_i64 _ := .error .SyntaxError
  visit_f64 _ := .error .SyntaxError
  visit_bool _ := .error .SyntaxError
  visit_seq _ := .err DecodeError.syntax_error
  visit_map _ := .err DecodeError.syntax_error
  visit_unit := .error DecodeError.syntax_error
  visit_none := .error DecodeError.syntax_error
  visit_some _ := .err DecodeError.syntax_error

/-- The `i64` consumer: accepts exactly an integer. -/
def intVisitor : Visitor Int :=
  { defaultVisitor Int with visit_i64 := fun i => .ok i }

/-- Conversion `<i64 as Deserialize>::deserialize` against a `Decoder`. -/
def intDeser (d : Decoder) : Outcome (Int × Decoder) := d.visit intVisitor

/-- The field-identifier consumer of a struct with the single field
`name`: any other key is answered with `UnknownFieldError`, as serde's
derived field visitors do. -/
def fieldVisitor (name : String) : Visitor Unit :=
  { defaultVisitor Unit with
      visit_string := fun s =>
        if s = name then .ok () else .error (.UnknownFieldError s) }

/-- Field-identifier conversion against a fresh `Decoder`, as
`visit_key` invokes it. -/
def fieldDeser (name : String) (d : Decoder) : Outcome (Unit × Decoder) :=
  d.visit (fieldVisitor name)

/-- The `Option<i64>` consumer: its deserialize goes through
`visit_option` / `visit_none`. -/
def optionIntVisitor : Visitor (Option Int) :=
  { defaultVisitor (Option Int) with
      visit_none := .ok none
      visit_some := fun d => (d.visit intVisitor).map (fun p => (some p.1, p.2)) }

/-- Probe of `Option<i64>` against the `UnitDeserializer` (its
deserialize calls `visit_option`). -/
def optProbe (u : UnitDeserializer) : Outcome (Option Int) :=
  u.visit_option optionIntVisitor

/-- Probe of `i64` against the `UnitDeserializer` (its deserialize calls
`visit`, which offers unit). -/
def intProbe (u : UnitDeserializer) : Outcome Int :=
  u.visit intVisitor

/-- Map-consumption script of a struct `{ x: Option<i64> }`: pull a key,
on absence fall back to `missing_field`. -/
def optStructVisitMap (m : MapVisitor) : Outcome (Option Int × MapVisitor) :=
  match m.visit_key (fieldDeser "x") with
  | .ok (some _, m1) =>
    match m1.visit_value (fun d => (d.visit optionIntVisitor)) with
    | .ok (v, m2) =>
      match m2.end_ with
      | .ok _ => .ok (v, m2)
      | .error e => .err e
    | .err e => .err e
    | .panic => .panic
  | .ok (none, m1) =>
    match m1.missing_field "x" optProbe with
    | .ok v =>
      match m1.end_ with
      | .ok _ => .ok (v, m1)
      | .error e => .err e
    | .err e => .err e
    | .panic => .panic
  | .err e => .err e
  | .panic => .panic

/-- The struct `{ x: Option<i64> }` consumer. -/
def optStructVisitor : Visitor (Option Int) :=
  { defaultVisitor (Option Int) with visit_map := optStructVisitMap }

/-- Map-consumption script of a struct `{ x: i64 }` (required field). -/
def reqStructVisitMap (m : MapVisitor) : Outcome (Int × MapVisitor) :=
  match m.visit_key (fieldDeser "x") with
  | .ok (some _, m1) =>
    match m1.visit_value intDeser with
    | .ok (v, m2) =>
      match m2.end_ with
      | .ok _ => .ok (v, m2)
      | .error e => .err e
    | .err e => .err e
    | .panic => .panic
  | .ok (none, m1) =>
    match m1.missing_field "x" intProbe with
    | .ok v =>
      match m1.end_ with
      | .ok _ => .ok (v, m1)
      | .error e => .err e
    | .err e => .err e
    | .panic => .panic
  | .err e => .err e
  | .panic => .panic

/-- The struct `{ x: i64 }` consumer. -/
def reqStructVisitor : Visitor Int :=
  { defaultVisitor Int with visit_map := reqStructVisitMap }

/-- Map-consumption script of the inner struct `{ y: i64 }` of the C4
scenario: match `y`, read its value, pull once more (diverting unknown
keys), finish. -/
def innerVisitMap (m : MapVisitor) : Outcome (Int × MapVisitor) :=
  match m.visit_key (fieldDeser "y") with
  | .ok (some _, m1) =>
    match m1.visit_value intDeser with
    | .ok (n, m2) =>
      match m2.visit_key (fieldDeser "y") with
      | .ok (none, m3) =>
        match m3.end_ with
        | .ok _ => .ok (n, m3)
        | .error e => .err e
      | .ok (some _, _) => .err DecodeError.syntax_error
      | .err e => .err e
      | .panic => .panic
    | .err e => .err e
    | .panic => .panic
  | .ok (none, _) => .err DecodeError.syntax_error
  | .err e => .err e
  | .panic => .panic

/-- The inner struct `{ y: i64 }` consumer. -/
def innerVisitor : Visitor Int :=
  { defaultVisitor Int with visit_map := innerVisitMap }

/-- Conversion of `{ y: i64 }` against a fresh `Decoder`, as
`visit_value` invokes it. -/
def innerDeser (d : Decoder) : Outcome (Int × Decoder) := d.visit innerVisitor

/-- Map-consumption script of the outer shape `{ x: { y: i64 } }`. -/
def outerVisitMap (m : MapVisitor) : Outcome (Int × MapVisitor) :=
  match m.visit_key (fieldDeser "x") with
  | .ok (some _, m1) =>
    match m1.visit_value innerDeser with
    | .ok (n, m2) =>
      match m2.visit_key (fieldDeser "x") with
      | .ok (none, m3) =>
        match m3.end_ with
        | .ok _ => .ok (n, m3)
        | .error e => .err e
      | .ok (some _, _) => .err DecodeError.syntax_error
      | .err e => .err e
      | .panic => .panic
    | .err e => .err e
    | .panic => .panic
  | .ok (none, _) => .err DecodeError.syntax_error
  | .err e => .err e
  | .panic => .panic

/-- The outer shape `{ x: { y: i64 } }` consumer. -/
def outerVisitor : Visitor Int :=
  { defaultVisitor Int with visit_map := outerVisitMap }

/-- A `Vec<i64>` consumer's sequence loop, with explicit fuel. -/
def collectInts : Nat → SeqDeserializer → Outcome (List Int × SeqDeserializer)
  | 0, _ => .err DecodeError.syntax_error
  | fuel + 1, st =>
    match st.visit intDeser with
    | .ok (some n, st1) => (collectInts fuel st1).map (fun p => (n :: p.1, p.2))
    | .ok (none, st1) =>
      match st1.end_ with
      | .ok _ => .ok ([], st1)
      | .error e => .err e
    | .err e => .err e
    | .panic => .panic

/-- The `Vec<i64>` consumer. -/
def listIntVisitor : Visitor (List Int) :=
  { defaultVisitor (List Int) with
      visit_seq := fun st => collectInts (st.len + 1) st }

/-- A consumer that pulls exactly `K` elements from a sequence cursor
through `deser` and stops (modelling a consumer that stops early or on
time), collecting the converted elements. -/
def seqPulls {β : Type} (deser : Decoder → Outcome (β × Decoder)) :
    Nat → SeqDeserializer → Outcome (List β × SeqDeserializer)
  | 0, s => .ok ([], s)
  | n + 1, s =>
    match s.visit deser with
    | .ok (some v, s1) => (seqPulls deser n s1).map (fun p => (v :: p.1, p.2))
    | .ok (none, s1) => .ok ([], s1)
    | .err e => .err e
    | .panic => .panic

/-- Shape of a residue-accumulator slot in map context: empty slots
count as the empty table, a non-`Table` occupant has no table. -/
def resTable : Option Value → Option (List (String × Value))
  | none => some []
  | some (.Table t) => some t
  | _ => none

/-! Helper lemmas. -/

theorem seq_put_fields (s : SeqDeserializer) (v : Value) (s' : SeqDeserializer)
    (h : s.put_value_back v = .ok s') : s'.iter = s.iter ∧ s'.len = s.len := by
  unfold SeqDeserializer.put_value_back at h
  split at h
  · cases h
    exact ⟨rfl, rfl⟩
  · cases h

theorem Outcome.map_eq_ok {α β : Type} (f : α → β) (x : Outcome α) (y : β)
    (h : x.map f = .ok y) : ∃ a, x = .ok a ∧ f a = y := by
  cases x with
  | ok a => exact ⟨a, rfl, by cases h; rfl⟩
  | err e => cases h
  | panic => cases h

theorem seq_visit_some_step {β : Type} (s : SeqDeserializer)
    (deser : Decoder → Outcome (β × Decoder)) (b : β) (s' : SeqDeserializer)
    (h : s.visit deser = .ok (some b, s')) :
    s'.iter.length = s.iter.length - 1 ∧ s'.len = s.len - 1 ∧ s.iter ≠ [] := by
  obtain ⟨iter, len, toml⟩ := s
  cases iter with
  | nil => simp [SeqDeserializer.visit] at h
  | cons v rest =>
    simp only [SeqDeserializer.visit] at h
    split at h
    · cases h
    · cases h
    · split at h
      · obtain ⟨s2, hp, hy⟩ := Outcome.map_eq_ok _ _ _ h
        obtain ⟨h1, h2⟩ := seq_put_fields _ _ _ hp
        cases hy
        simp only at h1 h2
        simp [h1, h2]
      · cases h
        simp

theorem seqPulls_len {β : Type} (deser : Decoder → Outcome (β × Decoder)) :
    ∀ (K : Nat) (s : SeqDeserializer) (l : List β) (s' : SeqDeserializer),
      s.len = s.iter.length →
      seqPulls deser K s = .ok (l, s') → l.length = K →
      s'.len = s.len - K ∧ s'.len = s'.iter.length := by
  intro K
  induction K with
  | zero =>
    intro s l s' hlen h hl
    unfold seqPulls at h
    cases h
    exact ⟨rfl, hlen⟩
  | succ n ih =>
    intro s l s' hlen h hl
    unfold seqPulls at h
    split at h
    · rename_i b s1 hv
      obtain ⟨q, hp, hy⟩ := Outcome.map_eq_ok _ _ _ h
      obtain ⟨l1, s2⟩ := q
      cases hy
      simp only [List.length_cons, Nat.succ.injEq] at hl
      obtain ⟨hlen1, hlen2, _⟩ := seq_visit_some_step s deser b s1 hv
      have hs1 : s1.len = s1.iter.length := by
        rw [hlen1, hlen2, hlen]
      obtain ⟨ih1, ih2⟩ := ih s1 l1 s2 hs1 hp hl
      exact ⟨by rw [ih1, hlen2]; omega, ih2⟩
    · cases h
      simp at hl
    · cases h
    · cases h

/-- Shape invariant of the sequence-context accumulator slot: empty or
holding an `Array`. -/
def seqSlotInv (o : Option Value) : Prop := o = none ∨ ∃ a, o = some (.Array a)

/-- Shape invariant of the map-context accumulator slot: empty or
holding a `Table`. -/
def mapSlotInv (o : Option Value) : Prop := o = none ∨ ∃ t, o = some (.Table t)

theorem primResult_ne_panic {α : Type} (r : Except SerdeError α) (ty : String) :
    primResult r ty ≠ .panic := by
  cases r <;> simp [primResult]

theorem Outcome.map_eq_panic {α β : Type} (f : α → β) (x : Outcome α)
    (h : x.map f = .panic) : x = .panic := by
  cases x with
  | ok a => cases h
  | err e => cases h
  | panic => rfl

theorem visitor_visit_ne_panic {α : Type} (vis : Visitor α) (d : Decoder)
    (hseq : ∀ st, vis.visit_seq st ≠ .panic)
    (hmap : ∀ st, vis.visit_map st ≠ .panic) :
    d.visit vis ≠ .panic := by
  rcases d with ⟨toml⟩
  cases toml with
  | none => intro hc; cases hc
  | some v =>
    cases v with
    | String s =>
      show primResult (vis.visit_string s) "string" ≠ .panic
      exact primResult_ne_panic _ _
    | Integer i =>
      show primResult (vis.visit_i64 i) "integer" ≠ .panic
      exact primResult_ne_panic _ _
    | Float f =>
      show primResult (vis.visit_f64 f) "float" ≠ .panic
      exact primResult_ne_panic _ _
    | Boolean b =>
      show primResult (vis.visit_bool b) "bool" ≠ .panic
      exact primResult_ne_panic _ _
    | Datetime s =>
      show primResult (vis.visit_string s) "date" ≠ .panic
      exact primResult_ne_panic _ _
    | Array a =>
      intro hc
      exact hseq _ (Outcome.map_eq_panic _ _ hc)
    | Table t =>
      intro hc
      exact hmap _ (Outcome.map_eq_panic _ _ hc)

theorem fieldDeser_ne_panic (name : String) (d : Decoder) :
    fieldDeser name d ≠ .panic :=
  visitor_visit_ne_panic (fieldVisitor name) d
    (fun _ hc => by cases hc) (fun _ hc => by cases hc)

theorem intDeser_ne_panic (d : Decoder) : intDeser d ≠ .panic :=
  visitor_visit_ne_panic intVisitor d
    (fun _ hc => by cases hc) (fun _ hc => by cases hc)

theorem seq_put_safe (s : SeqDeserializer) (v : Value) (h : seqSlotInv s.toml) :
    ∃ a', s.put_value_back v = .ok {s with toml := some (.Array a')} := by
  unfold SeqDeserializer.put_value_back
  rcases h with h | ⟨a, ha⟩
  · rw [h]
    exact ⟨[v], rfl⟩
  · rw [ha]
    exact ⟨a ++ [v], rfl⟩

theorem map_put_safe (s : MapVisitor) (v : Value) (k : String)
    (hk : s.key = some k) (h : mapSlotInv s.toml) :
    ∃ t', s.put_value_back v = .ok {s with toml := some (.Table t'), key := none} := by
  unfold MapVisitor.put_value_back
  rcases h with h | ⟨t, ht⟩
  · rw [h, hk]
    exact ⟨Table.insert [] k v, rfl⟩
  · rw [ht, hk]
    exact ⟨Table.insert t k v, rfl⟩

theorem seq_visit_safe {β : Type} (s : SeqDeserializer)
    (deser : Decoder → Outcome (β × Decoder))
    (hinv : seqSlotInv s.toml) (hnp : ∀ d, deser d ≠ .panic) :
    s.visit deser ≠ .panic
    ∧ ∀ r s', s.visit deser = .ok (r, s') → seqSlotInv s'.toml := by
  obtain ⟨iter, len, toml⟩ := s
  cases iter with
  | nil =>
    refine ⟨fun hc => (by cases hc), ?_⟩
    intro r s' h
    simp only [SeqDeserializer.visit] at h
    cases h
    exact hinv
  | cons v rest =>
    cases hd : deser (Decoder.new v) with
    | panic => exact absurd hd (hnp _)
    | err e =>
      refine ⟨?_, ?_⟩
      · intro hc
        simp only [SeqDeserializer.visit] at hc
        rw [hd] at hc
        cases hc
      · intro r s' h
        simp only [SeqDeserializer.visit] at h
        rw [hd] at h
        cases h
    | ok p =>
      obtain ⟨b, de⟩ := p
      cases ht : de.toml with
      | none =>
        refine ⟨?_, ?_⟩
        · intro hc
          simp only [SeqDeserializer.visit] at hc
          rw [hd] at hc
          simp only at hc
          rw [ht] at hc
          cases hc
        · intro r s' h
          simp only [SeqDeserializer.visit] at h
          rw [hd] at h
          simp only at h
          rw [ht] at h
          cases h
          exact hinv
      | some t =>
        obtain ⟨a', hp⟩ := seq_put_safe ⟨rest, len - 1, toml⟩ t hinv
        refine ⟨?_, ?_⟩
        · intro hc
          simp only [SeqDeserializer.visit] at hc
          rw [hd] at hc
          simp only at hc
          rw [ht] at hc
          simp only at hc
          rw [hp] at hc
          cases hc
        · intro r s' h
          simp only [SeqDeserializer.visit] at h
          rw [hd] at h
          simp only at h
          rw [ht] at h
          simp only at h
          rw [hp] at h
          simp only [Outcome.map] at h
          cases h
          exact Or.inr ⟨a', rfl⟩

theorem visit_key_go_safe {κ : Type} (keyDeser : Decoder → Outcome (κ × Decoder))
    (hnp : ∀ d, keyDeser d ≠ .panic) :
    ∀ (iter : List (String × Value)) (toml : Option Value) (key : Option String)
      (value : Option Value), mapSlotInv toml →
      MapVisitor.visit_key_go keyDeser iter toml key value ≠ .panic
      ∧ ∀ r s', MapVisitor.visit_key_go keyDeser iter toml key value = .ok (r, s') →
          mapSlotInv s'.toml := by
  intro iter
  induction iter with
  | nil =>
    intro toml key value hinv
    refine ⟨fun hc => (by cases hc), ?_⟩
    intro r s' h
    simp only [MapVisitor.visit_key_go] at h
    cases h
    exact hinv
  | cons e rest ih =>
    obtain ⟨k, v⟩ := e
    intro toml key value hinv
    cases hd : keyDeser (Decoder.new (.String k)) with
    | panic => exact absurd hd (hnp _)
    | ok p =>
      obtain ⟨val, d'⟩ := p
      refine ⟨?_, ?_⟩
      · intro hc
        simp only [MapVisitor.visit_key_go] at hc
        rw [hd] at hc
        cases hc
      · intro r s' h
        simp only [MapVisitor.visit_key_go] at h
        rw [hd] at h
        cases h
        exact hinv
    | err e' =>
      cases hek : e'.kind with
      | UnknownField =>
        obtain ⟨t', hp⟩ := map_put_safe ⟨rest, toml, some k, value⟩ v k rfl hinv
        have hrec := ih (some (.Table t')) none value (Or.inr ⟨t', rfl⟩)
        refine ⟨?_, ?_⟩
        · intro hc
          simp only [MapVisitor.visit_key_go] at hc
          rw [hd] at hc
          simp only at hc
          rw [hek] at hc
          simp only at hc
          rw [hp] at hc
          simp only at hc
          exact hrec.1 hc
        · intro r s' h
          simp only [MapVisitor.visit_key_go] at h
          rw [hd] at h
          simp only at h
          rw [hek] at h
          simp only at h
          rw [hp] at h
          simp only at h
          exact hrec.2 r s' h
      | SyntaxError =>
        refine ⟨?_, ?_⟩
        · intro hc
          simp only [MapVisitor.visit_key_go] at hc
          rw [hd] at hc
          simp only at hc
          rw [hek] at hc
          cases hc
        · intro r s' h
          simp only [MapVisitor.visit_key_go] at h
          rw [hd] at h
          simp only at h
          rw [hek] at h
          cases h
      | EndOfStream =>
        refine ⟨?_, ?_⟩
        · intro hc
          simp only [MapVisitor.visit_key_go] at hc
          rw [hd] at hc
          simp only at hc
          rw [hek] at hc
          cases hc
        · intro r s' h
          simp only [MapVisitor.visit_key_go] at h
          rw [hd] at h
          simp only at h
          rw [hek] at h
          cases h
      | ExpectedField ty =>
        refine ⟨?_, ?_⟩
        · intro hc
          simp only [MapVisitor.visit_key_go] at hc
          rw [hd] at hc
          simp only at hc
          rw [hek] at hc
          cases hc
        · intro r s' h
          simp only [MapVisitor.visit_key_go] at h
          rw [hd] at h
          simp only at h
          rw [hek] at h
          cases h

theorem visit_value_safe {β : Type} (s : MapVisitor)
    (deser : Decoder → Outcome (β × Decoder)) (k : String)
    (hk : s.key = some k) (hinv : mapSlotInv s.toml)
    (hnp : ∀ d, deser d ≠ .panic) :
    s.visit_value deser ≠ .panic
    ∧ ∀ b s', s.visit_value deser = .ok (b, s') → mapSlotInv s'.toml := by
  cases hv : s.value with
  | none =>
    refine ⟨?_, ?_⟩
    · intro hc
      simp only [MapVisitor.visit_value, hv] at hc
      cases hc
    · intro b s' h
      simp only [MapVisitor.visit_value, hv] at h
      cases h
  | some t =>
    cases hd : deser (Decoder.new t) with
    | panic => exact absurd hd (hnp _)
    | err e =>
      refine ⟨?_, ?_⟩
      · intro hc
        simp only [MapVisitor.visit_value, hv] at hc
        rw [hd] at hc
        cases hc
      · intro b s' h
        simp only [MapVisitor.visit_value, hv] at h
        rw [hd] at h
        cases h
    | ok p =>
      obtain ⟨b', de⟩ := p
      cases ht : de.toml with
      | none =>
        refine ⟨?_, ?_⟩
        · intro hc
          simp only [MapVisitor.visit_value, hv] at hc
          rw [hd] at hc
          simp only at hc
          rw [ht] at hc
          cases hc
        · intro b s' h
          simp only [MapVisitor.visit_value, hv] at h
          rw [hd] at h
          simp only at h
          rw [ht] at h
          cases h
          exact hinv
      | some t2 =>
        obtain ⟨t', hp⟩ := map_put_safe {s with value := none} t2 k hk hinv
        refine ⟨?_, ?_⟩
        · intro hc
          simp only [MapVisitor.visit_value, hv] at hc
          rw [hd] at hc
          simp only at hc
          rw [ht] at hc
          simp only at hc
          rw [hp] at hc
          cases hc
        · intro b s' h
          simp only [MapVisitor.visit_value, hv] at h
          rw [hd] at h
          simp only at h
          rw [ht] at h
          simp only at h
          rw [hp] at h
          simp only [Outcome.map] at h
          cases h
          exact Or.inr ⟨t', rfl⟩

/-- C7: se2toml is a total pure mapping of the four signals:
SyntaxError to a field-less SyntaxError, EndOfStreamError to a field-less
EndOfStream, MissingFieldError(s) to ExpectedField carrying the declared
type tag under field s, UnknownFieldError(s) to UnknownField under
field s. -/
theorem c7_se2toml_total :
    ∀ ty : String,
    (se2toml .SyntaxError ty = ⟨none, .SyntaxError⟩)
    ∧ (se2toml .EndOfStreamError ty = ⟨none, .EndOfStream⟩)
    ∧ (∀ s : String, se2toml (.MissingFieldError s) ty =
        ⟨some s, .ExpectedField (some ty)⟩)
    ∧ (∀ s : String, se2toml (.UnknownFieldError s) ty =
        ⟨some s, .UnknownField⟩) :=
  fun _ => ⟨rfl, rfl, fun _ => rfl, fun _ => rfl⟩

/-- C2: over an array of length `N`, a consumer that pulls exactly `K`
elements and then calls `SeqDeserializer::end` gets a field-less
`EndOfStream` when `K < N` and success when `K = N`; `end` succeeds
exactly when the remaining count is zero. -/
theorem c2_seq_end_exhaustion :
    (∀ (β : Type) (arr : List Value) (deser : Decoder → Outcome (β × Decoder))
        (K : Nat) (l : List β) (s' : SeqDeserializer),
        seqPulls deser K ⟨arr, arr.length, none⟩ = .ok (l, s') → l.length = K →
        (K < arr.length → s'.end_ = .error ⟨none, .EndOfStream⟩)
        ∧ (K = arr.length → s'.end_ = .ok ()))
    ∧ (∀ s : SeqDeserializer, s.end_ = .ok () ↔ s.len = 0) := by
  have hend : ∀ s : SeqDeserializer, s.end_ = .ok () ↔ s.len = 0 := by
    intro s
    unfold SeqDeserializer.end_
    constructor
    · intro h
      by_contra hc
      rw [if_neg hc] at h
      cases h
    · intro h
      rw [if_pos h]
  refine ⟨?_, hend⟩
  intro β arr deser K l s' h hl
  have hlen : (⟨arr, arr.length, none⟩ : SeqDeserializer).len =
      (⟨arr, arr.length, none⟩ : SeqDeserializer).iter.length := rfl
  obtain ⟨h1, _⟩ := seqPulls_len deser K ⟨arr, arr.length, none⟩ l s' hlen h hl
  simp only at h1
  constructor
  · intro hK
    unfold SeqDeserializer.end_
    rw [if_neg (by omega)]
    rfl
  · intro hK
    rw [(hend s').2 (by omega)]

/-- Witness for C2 on the array `[7, 8]`: pulling one of two elements
and finishing fails with `EndOfStream`; pulling both and finishing
succeeds. -/
theorem c2_seq_end_exhaustion_witness :
    SeqDeserializer.end_ ⟨[.Integer 8], 1, none⟩ = .error ⟨none, .EndOfStream⟩
    ∧ SeqDeserializer.end_ ⟨[], 0, none⟩ = .ok () :=
  ⟨(c2_seq_end_exhaustion.1 Int [.Integer 7, .Integer 8] intDeser 1 [7]
      ⟨[.Integer 8], 1, none⟩ rfl rfl).1 (by decide),
   (c2_seq_end_exhaustion.1 Int [.Integer 7, .Integer 8] intDeser 2 [7, 8]
      ⟨[], 0, none⟩ rfl rfl).2 (by decide)⟩

/-- C1: one step of `MapVisitor::visit_key` on the next entry `(k, v)`:
a successful key conversion returns the key and stashes `v` as the
pending value; an `UnknownField` failure inserts `v` into the residual
table under `k` and continues the loop on the remaining entries; any
other failure is returned immediately. -/
theorem c1_next_key_policy {κ : Type} (s : MapVisitor) (k : String) (v : Value)
    (rest : List (String × Value)) (keyDeser : Decoder → Outcome (κ × Decoder))
    (hiter : s.iter = (k, v) :: rest) :
    (∀ val d', keyDeser (Decoder.new (.String k)) = .ok (val, d') →
        s.visit_key keyDeser = .ok (some val, ⟨rest, s.toml, some k, some v⟩))
    ∧ (∀ e t0, keyDeser (Decoder.new (.String k)) = .err e →
        e.kind = .UnknownField → resTable s.toml = some t0 →
        s.visit_key keyDeser =
          MapVisitor.visit_key ⟨rest, some (.Table (Table.insert t0 k v)), none, s.value⟩
            keyDeser)
    ∧ (∀ e, keyDeser (Decoder.new (.String k)) = .err e →
        e.kind ≠ .UnknownField → s.visit_key keyDeser = .err e) := by
  refine ⟨?_, ?_, ?_⟩
  · intro val d' h
    simp only [MapVisitor.visit_key, hiter, MapVisitor.visit_key_go, h]
  · intro e t0 h hk hres
    simp only [MapVisitor.visit_key, hiter, MapVisitor.visit_key_go, h, hk]
    cases hs : s.toml with
    | none =>
      simp only [hs, resTable, Option.some.injEq] at hres
      subst hres
      simp only [MapVisitor.put_value_back, hs, Option.or]
    | some occupant =>
      cases occupant with
      | Table t =>
        simp only [hs, resTable, Option.some.injEq] at hres
        subst hres
        simp only [MapVisitor.put_value_back, hs, Option.or]
      | String a => rw [hs] at hres; exact Option.noConfusion hres
      | Integer a => rw [hs] at hres; exact Option.noConfusion hres
      | Float a => rw [hs] at hres; exact Option.noConfusion hres
      | Boolean a => rw [hs] at hres; exact Option.noConfusion hres
      | Datetime a => rw [hs] at hres; exact Option.noConfusion hres
      | Array a => rw [hs] at hres; exact Option.noConfusion hres
  · intro e h hk
    simp only [MapVisitor.visit_key, hiter, MapVisitor.visit_key_go, h]

/-- Witness for C1 at a concrete entry: key `"a"` matched by the
single-field consumer, value stashed. -/
theorem c1_next_key_policy_witness :
    MapVisitor.visit_key ⟨[("a", .Integer 1)], none, none, none⟩ (fieldDeser "a") =
      .ok (some (), ⟨[], none, some "a", some (.Integer 1)⟩) :=
  (c1_next_key_policy ⟨[("a", .Integer 1)], none, none, none⟩ "a" (.Integer 1) []
    (fieldDeser "a") rfl).1 () ⟨none⟩ rfl

/-- C3: `MapVisitor::end` always succeeds, for every cursor state, in
contrast with `SeqDeserializer::end`, which fails with `EndOfStream`
whenever elements remain unconsumed. -/
theorem c3_map_end_always_ok :
    (∀ s : MapVisitor, s.end_ = .ok ())
    ∧ (∀ s : SeqDeserializer, s.len ≠ 0 →
        s.end_ = .error ⟨none, .EndOfStream⟩) := by
  refine ⟨fun s => rfl, fun s h => ?_⟩
  unfold SeqDeserializer.end_
  rw [if_neg h]
  rfl

/-- Witness for C3: a map cursor with an unvisited entry still finishes
successfully; a sequence cursor with three remaining elements does not. -/
theorem c3_map_end_always_ok_witness :
    MapVisitor.end_ ⟨[("a", .Integer 1)], none, none, none⟩ = .ok ()
    ∧ SeqDeserializer.end_ ⟨[], 3, none⟩ = .error ⟨none, .EndOfStream⟩ :=
  ⟨c3_map_end_always_ok.1 ⟨[("a", .Integer 1)], none, none, none⟩,
   c3_map_end_always_ok.2 ⟨[], 3, none⟩ (by decide)⟩

/-- C5: `MapVisitor::missing_field` reinterprets a `SyntaxError` probe
failure as `ExpectedField`, attaching the field name unless the probe
error already carried one; every other probe outcome is returned
unchanged.  Consequently an empty table decodes into a shape with one
optional field `x` as `x` absent, while a required field `x` yields
`ExpectedField` under field `"x"`. -/
theorem c5_missing_field_probe :
    (∀ (β : Type) (m : MapVisitor) (name : String)
        (probe : UnitDeserializer → Outcome β) (e : DecodeError),
        probe ⟨⟩ = .err e → e.kind = .SyntaxError →
        m.missing_field name probe =
          .err ⟨e.field.or (some name), .ExpectedField none⟩)
    ∧ (∀ (β : Type) (m : MapVisitor) (name : String)
        (probe : UnitDeserializer → Outcome β) (e : DecodeError),
        probe ⟨⟩ = .err e → e.kind ≠ .SyntaxError →
        m.missing_field name probe = .err e)
    ∧ (∀ (β : Type) (m : MapVisitor) (name : String)
        (probe : UnitDeserializer → Outcome β) (b : β),
        probe ⟨⟩ = .ok b → m.missing_field name probe = .ok b)
    ∧ Decoder.visit ⟨some (.Table [])⟩ optStructVisitor = .ok (none, ⟨none⟩)
    ∧ Decoder.visit ⟨some (.Table [])⟩ reqStructVisitor =
        .err ⟨some "x", .ExpectedField none⟩ := by
  refine ⟨?_, ?_, ?_, rfl, rfl⟩
  · intro β m name probe e h hk
    simp only [MapVisitor.missing_field, h, hk]
  · intro β m name probe e h hk
    simp only [MapVisitor.missing_field, h]
  · intro β m name probe b h
    simp only [MapVisitor.missing_field, h]

/-- Witness for C5: a field-less `SyntaxError` probe failure becomes
`ExpectedField` under the probed field name. -/
theorem c5_missing_field_probe_witness :
    MapVisitor.missing_field ⟨[], none, none, none⟩ "x" intProbe =
      .err ⟨some "x", .ExpectedField none⟩ :=
  c5_missing_field_probe.1 Int ⟨[], none, none, none⟩ "x" intProbe
    ⟨none, .SyntaxError⟩ rfl rfl

/-- C6: `Decoder::visit_seq` with an empty pending slot offers the
consumer an empty zero-length sequence (so a list consumer succeeds with
`[]` where the general dispatch would fail with `EndOfStream`); with a
non-empty slot it behaves exactly like the general dispatch `visit`. -/
theorem c6_visit_seq_empty_slot :
    (∀ (α : Type) (d : Decoder) (vis : Visitor α) (x : Value),
        d.toml = some x → d.visit_seq vis = d.visit vis)
    ∧ (∀ (α : Type) (vis : Visitor α),
        Decoder.visit_seq ⟨none⟩ vis =
          (vis.visit_seq ⟨[], 0, none⟩).map (fun p => (p.1, (⟨none⟩ : Decoder))))
    ∧ Decoder.visit_seq ⟨none⟩ listIntVisitor = .ok ([], ⟨none⟩)
    ∧ Decoder.visit ⟨none⟩ listIntVisitor = .err ⟨none, .EndOfStream⟩ := by
  refine ⟨?_, fun α vis => rfl, rfl, rfl⟩
  intro α d vis x h
  simp only [Decoder.visit_seq, h]

/-- Witness for C6: with a pending integer, the sequence-shape entry
point coincides with the general dispatch. -/
theorem c6_visit_seq_empty_slot_witness :
    Decoder.visit_seq ⟨some (.Integer 3)⟩ intVisitor =
      Decoder.visit ⟨some (.Integer 3)⟩ intVisitor :=
  c6_visit_seq_empty_slot.1 Int ⟨some (.Integer 3)⟩ intVisitor (.Integer 3) rfl

/-- C4: `MapVisitor::visit_value` folds the residue the child decoder
still holds back into the residual table under the key matched by the
preceding `visit_key`; in particular the nested scenario
`Table{x: Table{y: 1, z: 2}}` decoded into `{x: {y: integer}}` yields
`x.y = 1` with overall residue `Table{x: Table{z: 2}}`. -/
theorem c4_next_value_residue :
    (∀ (β : Type) (s : MapVisitor) (t : Value)
        (deser : Decoder → Outcome (β × Decoder)) (b : β) (r : Value)
        (key0 : String) (t0 : List (String × Value)),
        s.value = some t → s.key = some key0 → resTable s.toml = some t0 →
        deser (Decoder.new t) = .ok (b, ⟨some r⟩) →
        s.visit_value deser =
          .ok (b, ⟨s.iter, some (.Table (Table.insert t0 key0 r)), none, none⟩))
    ∧ Decoder.visit
        ⟨some (.Table [("x", .Table [("y", .Integer 1), ("z", .Integer 2)])])⟩
        outerVisitor =
        .ok (1, ⟨some (.Table [("x", .Table [("z", .Integer 2)])])⟩) := by
  refine ⟨?_, rfl⟩
  intro β s t deser b r key0 t0 hv hkey hres hd
  simp only [MapVisitor.visit_value, hv, hd]
  cases hs : s.toml with
  | none =>
    simp only [hs, resTable, Option.some.injEq] at hres
    subst hres
    simp only [MapVisitor.put_value_back, hs, Option.or, hkey, Outcome.map]
  | some occupant =>
    cases occupant with
    | Table t1 =>
      simp only [hs, resTable, Option.some.injEq] at hres
      subst hres
      simp only [MapVisitor.put_value_back, hs, Option.or, hkey, Outcome.map]
    | String a => rw [hs] at hres; exact Option.noConfusion hres
    | Integer a => rw [hs] at hres; exact Option.noConfusion hres
    | Float a => rw [hs] at hres; exact Option.noConfusion hres
    | Boolean a => rw [hs] at hres; exact Option.noConfusion hres
    | Datetime a => rw [hs] at hres; exact Option.noConfusion hres
    | Array a => rw [hs] at hres; exact Option.noConfusion hres

/-- Witness for C4: the outer `visit_value` step of the nested scenario,
folding the inner residue `Table{z: 2}` back under the matched key
`"x"`. -/
theorem c4_next_value_residue_witness :
    MapVisitor.visit_value
      ⟨[], none, some "x", some (.Table [("y", .Integer 1), ("z", .Integer 2)])⟩
      innerDeser =
      .ok (1, ⟨[], some (.Table [("x", .Table [("z", .Integer 2)])]), none, none⟩) :=
  c4_next_value_residue.1 Int
    ⟨[], none, some "x", some (.Table [("y", .Integer 1), ("z", .Integer 2)])⟩
    (.Table [("y", .Integer 1), ("z", .Integer 2)]) innerDeser 1
    (.Table [("z", .Integer 2)]) "x" [] rfl rfl rfl rfl

/-- C9: field attribution.  `missing_field` keeps a field name the probe
error already carries and attaches its own only when none is set; the
cursor frames propagate child errors unchanged: `SeqDeserializer::visit`
and `MapVisitor::visit_value` return a failing child conversion's error
as is, and `MapVisitor::visit_key` returns a non-`UnknownField` key
conversion error as is. -/
theorem c9_field_never_overwritten :
    (∀ (β : Type) (m : MapVisitor) (name : String)
        (probe : UnitDeserializer → Outcome β) (e : DecodeError) (f : String),
        probe ⟨⟩ = .err e → e.kind = .SyntaxError → e.field = some f →
        m.missing_field name probe = .err ⟨some f, .ExpectedField none⟩)
    ∧ (∀ (β : Type) (m : MapVisitor) (name : String)
        (probe : UnitDeserializer → Outcome β) (e : DecodeError),
        probe ⟨⟩ = .err e → e.kind = .SyntaxError → e.field = none →
        m.missing_field name probe = .err ⟨some name, .ExpectedField none⟩)
    ∧ (∀ (β : Type) (s : SeqDeserializer) (v : Value) (rest : List Value)
        (deser : Decoder → Outcome (β × Decoder)) (e : DecodeError),
        s.iter = v :: rest → deser (Decoder.new v) = .err e →
        s.visit deser = .err e)
    ∧ (∀ (β : Type) (s : MapVisitor) (t : Value)
        (deser : Decoder → Outcome (β × Decoder)) (e : DecodeError),
        s.value = some t → deser (Decoder.new t) = .err e →
        s.visit_value deser = .err e)
    ∧ (∀ (κ : Type) (s : MapVisitor) (k : String) (v : Value)
        (rest : List (String × Value))
        (keyDeser : Decoder → Outcome (κ × Decoder)) (e : DecodeError),
        s.iter = (k, v) :: rest → keyDeser (Decoder.new (.String k)) = .err e →
        e.kind ≠ .UnknownField → s.visit_key keyDeser = .err e) := by
  refine ⟨?_, ?_, ?_, ?_, ?_⟩
  · intro β m name probe e f h hk hf
    simp only [MapVisitor.missing_field, h, hk, hf, Option.or]
  · intro β m name probe e h hk hf
    simp only [MapVisitor.missing_field, h, hk, hf, Option.or]
  · intro β s v rest deser e hiter h
    simp only [SeqDeserializer.visit, hiter, h]
  · intro β s t deser e hv h
    simp only [MapVisitor.visit_value, hv, h]
  · intro κ s k v rest keyDeser e hiter h hk
    simp only [MapVisitor.visit_key, hiter, MapVisitor.visit_key_go, h]

/-- Witness for C9: a child error carrying field `"inner"` crosses a
sequence frame unchanged, and a probe error that already names a field
keeps it through `missing_field`. -/
theorem c9_field_never_overwritten_witness :
    SeqDeserializer.visit ⟨[.Integer 1], 1, none⟩
      (fun _ => (.err ⟨some "inner", .SyntaxError⟩ : Outcome (Int × Decoder))) =
      .err ⟨some "inner", .SyntaxError⟩
    ∧ MapVisitor.missing_field ⟨[], none, none, none⟩ "x"
        (fun _ => (.err ⟨some "inner", .SyntaxError⟩ : Outcome Int)) =
        .err ⟨some "inner", .ExpectedField none⟩ :=
  ⟨c9_field_never_overwritten.2.2.1 Int ⟨[.Integer 1], 1, none⟩ (.Integer 1) []
    (fun _ => .err ⟨some "inner", .SyntaxError⟩) ⟨some "inner", .SyntaxError⟩
    rfl rfl,
   c9_field_never_overwritten.1 Int ⟨[], none, none, none⟩ "x"
    (fun _ => .err ⟨some "inner", .SyntaxError⟩) ⟨some "inner", .SyntaxError⟩
    "inner" rfl rfl rfl⟩

/-- C8: the general dispatch on an empty pending slot fails with a
field-less `EndOfStream`, and so does `MapVisitor::visit_value` without
a stashed pending value. -/
theorem c8_empty_slot_end_of_stream :
    (∀ (α : Type) (vis : Visitor α),
        Decoder.visit ⟨none⟩ vis = .err ⟨none, .EndOfStream⟩)
    ∧ (∀ (β : Type) (s : MapVisitor) (deser : Decoder → Outcome (β × Decoder)),
        s.value = none → s.visit_value deser = .err ⟨none, .EndOfStream⟩) := by
  refine ⟨fun α vis => rfl, ?_⟩
  intro β s deser h
  simp only [MapVisitor.visit_value, h]
  rfl

/-- Witness for C8: a map cursor whose pending value was never stashed
rejects `visit_value` with `EndOfStream`. -/
theorem c8_empty_slot_end_of_stream_witness :
    Decoder.visit ⟨none⟩ intVisitor = .err ⟨none, .EndOfStream⟩
    ∧ MapVisitor.visit_value ⟨[("a", .Integer 1)], none, none, none⟩ intDeser =
        .err ⟨none, .EndOfStream⟩ :=
  ⟨c8_empty_slot_end_of_stream.1 Int intVisitor,
   c8_empty_slot_end_of_stream.2 Int ⟨[("a", .Integer 1)], none, none, none⟩
     intDeser rfl⟩

/-- C10: the `unreachable!` branches of the two residue accumulators
cannot fire.  The cursor a `Decoder` hands to the consumer starts with an
empty accumulator slot (the pending value was taken on dispatch); under
the shape invariant — slot empty or `Array` in sequence context, empty or
`Table` in map context — each `put_value_back` succeeds and writes a value
of the matching compound kind, and the cursor operations preserve the
invariant and introduce no panic of their own. -/
theorem c10_unreachable_never_fires :
    (∀ (α : Type) (vis : Visitor α) (a : List Value),
        Decoder.visit ⟨some (.Array a)⟩ vis =
          (vis.visit_seq ⟨a, a.length, none⟩).map (fun p => (p.1, ⟨p.2.toml⟩)))
    ∧ (∀ (α : Type) (vis : Visitor α) (t : List (String × Value)),
        Decoder.visit ⟨some (.Table t)⟩ vis =
          (vis.visit_map ⟨t, none, none, none⟩).map (fun p => (p.1, ⟨p.2.toml⟩)))
    ∧ (∀ (s : SeqDeserializer) (v : Value), seqSlotInv s.toml →
        ∃ a', s.put_value_back v = .ok {s with toml := some (.Array a')})
    ∧ (∀ (s : MapVisitor) (v : Value) (k : String),
        s.key = some k → mapSlotInv s.toml →
        ∃ t', s.put_value_back v = .ok {s with toml := some (.Table t'), key := none})
    ∧ (∀ (β : Type) (s : SeqDeserializer) (deser : Decoder → Outcome (β × Decoder)),
        seqSlotInv s.toml → (∀ d, deser d ≠ .panic) →
        s.visit deser ≠ .panic
        ∧ ∀ r s', s.visit deser = .ok (r, s') → seqSlotInv s'.toml)
    ∧ (∀ (κ : Type) (s : MapVisitor) (keyDeser : Decoder → Outcome (κ × Decoder)),
        mapSlotInv s.toml → (∀ d, keyDeser d ≠ .panic) →
        s.visit_key keyDeser ≠ .panic
        ∧ ∀ r s', s.visit_key keyDeser = .ok (r, s') → mapSlotInv s'.toml)
    ∧ (∀ (β : Type) (s : MapVisitor) (deser : Decoder → Outcome (β × Decoder))
        (k : String), s.key = some k → mapSlotInv s.toml → (∀ d, deser d ≠ .panic) →
        s.visit_value deser ≠ .panic
        ∧ ∀ b s', s.visit_value deser = .ok (b, s') → mapSlotInv s'.toml) := by
  refine ⟨fun α vis a => rfl, fun α vis t => rfl, seq_put_safe, ?_, ?_, ?_, ?_⟩
  · intro s v k hk hinv
    exact map_put_safe s v k hk hinv
  · intro β s deser hinv hnp
    exact seq_visit_safe s deser hinv hnp
  · intro κ s keyDeser hinv hnp
    exact visit_key_go_safe keyDeser hnp s.iter s.toml s.key s.value hinv
  · intro β s deser k hk hinv hnp
    exact visit_value_safe s deser k hk hinv hnp

/-- Witness for C10: a map cursor over two entries, one unknown to the
single-field consumer, runs `visit_key` without panicking, and a
sequence element conversion with residue runs `visit` without
panicking. -/
theorem c10_unreachable_never_fires_witness :
    MapVisitor.visit_key ⟨[("a", .Integer 1), ("b", .Integer 2)], none, none, none⟩
      (fieldDeser "b") ≠ .panic
    ∧ SeqDeserializer.visit ⟨[.Integer 5], 1, none⟩ intDeser ≠ .panic :=
  ⟨(c10_unreachable_never_fires.2.2.2.2.2.1 Unit
      ⟨[("a", .Integer 1), ("b", .Integer 2)], none, none, none⟩
      (fieldDeser "b") (Or.inl rfl) (fieldDeser_ne_panic "b")).1,
   (c10_unreachable_never_fires.2.2.2.2.1 Int ⟨[.Integer 5], 1, none⟩
      intDeser (Or.inl rfl) intDeser_ne_panic).1⟩
